import Mathlib

/-!
Shallow embedding of `ros/src/waypoint_updater/waypoint_updater.py`
(class `WaypointUpdater`), the waypoint-updater node of the
CarND-Capstone-Friday repository.

Positions and speeds are modelled as exact reals; the route is a `List`
of waypoints.  The script runs under Python 2 (`import thread`), so the
module-level constant `CONSTANT_DECEL = 1 / LOOKAHEAD_WPS` is integer
floor division; it is embedded with natural-number division to keep that
semantics.  Python list indexing `xs[i]` appears here as `List.getD`
(callers only ever use in-range indices; theorems carry the range
hypotheses where they matter).  The KDTree nearest-neighbour query is an
external service (scipy); its result is passed in as a parameter, as the
spec treats the SpatialIndex as a pre-built collaborator.
-/

namespace WaypointUpdater

/-- Constant `LOOKAHEAD_WPS = 50`, number of waypoints published ahead. -/
def LOOKAHEAD_WPS : ℕ := 50

/-- Constant `CONSTANT_DECEL = 1 / LOOKAHEAD_WPS`.  The script is Python 2, so this
is integer floor division (`1 / 50 = 0`); we keep that semantics with
natural-number division. -/
def CONSTANT_DECEL : ℕ := 1 / LOOKAHEAD_WPS

/-- Constant `STOP_LINE_MARGIN = 2`, waypoints of padding in front of the stop line. -/
def STOP_LINE_MARGIN : ℕ := 2

/-- Constant `MAX_DECL = 0.5`, the deceleration bound used in the velocity profile. -/
def MAX_DECL : ℝ := 0.5

/-- A 3-D position, `pose.pose.position` of a waypoint message. -/
structure Position where
  x : ℝ
  y : ℝ
  z : ℝ

instance : Inhabited Position := ⟨⟨0, 0, 0⟩⟩

/-- A route waypoint: position plus the commanded linear speed
(`twist.twist.linear.x`), called the base speed for route waypoints. -/
structure Waypoint where
  position : Position
  speed : ℝ

instance : Inhabited Waypoint := ⟨⟨default, 0⟩⟩

/-- The lambda `dl` inside `WaypointUpdater.distance`: Euclidean distance
between two positions. -/
noncomputable def dl (a b : Position) : ℝ :=
  Real.sqrt ((a.x - b.x) ^ 2 + (a.y - b.y) ^ 2 + (a.z - b.z) ^ 2)

/-- Method `WaypointUpdater.distance(waypoints, wp1, wp2)`: the Python loop
`for i in range(wp1, wp2+1): dist += dl(pos[wp1], pos[i]); wp1 = i`,
embedded as a fold whose accumulator carries the running sum and the
current value of the mutated loop variable `wp1`. -/
noncomputable def distance (waypoints : List Waypoint) (wp1 wp2 : ℕ) : ℝ :=
  ((List.range' wp1 (wp2 + 1 - wp1)).foldl
    (fun acc i =>
      (acc.1 + dl (waypoints.getD acc.2 default).position
                  (waypoints.getD i default).position, i))
    ((0 : ℝ), wp1)).1

/-- Method `WaypointUpdater.decelerate_waypoints(waypoints, closest_idx)`:
builds a fresh waypoint per slice element, with speed
`min(vel, base)` where `vel = sqrt(2*MAX_DECL*dist) + i*CONSTANT_DECEL`
snapped to `0` below the `2.0` floor.  `stopline_wp_idx` is the field read
from the node state; `(· - ·).toNat` embeds Python's
`max(stopline_wp_idx - closest_idx - STOP_LINE_MARGIN, 0)`. -/
noncomputable def decelerate_waypoints (waypoints : List Waypoint)
    (stopline_wp_idx : ℤ) (closest_idx : ℕ) : List Waypoint :=
  (List.range waypoints.length).map fun i =>
    let p := waypoints.getD i default
    let stop_idx : ℕ := (stopline_wp_idx - closest_idx - STOP_LINE_MARGIN).toNat
    let dist := distance waypoints i stop_idx
    let vel0 := Real.sqrt (2 * MAX_DECL * dist) + (i : ℝ) * (CONSTANT_DECEL : ℝ)
    let vel := if vel0 < 2.0 then 0 else vel0
    { position := p.position, speed := min vel p.speed }

/-- Method `WaypointUpdater.generate_wp`: slice the lookahead window
`base_waypoints[closest : closest + LOOKAHEAD_WPS]` and either pass it
through unchanged or hand it to the deceleration profiler.  The resolved
closest index is a parameter (in the source it comes from
`get_closest_waypoint_id`). -/
noncomputable def generate_wp (base_waypoints : List Waypoint)
    (stopline_wp_idx : ℤ) (closest_wp_idx : ℕ) : List Waypoint :=
  let farthest_wp_idx := closest_wp_idx + LOOKAHEAD_WPS
  let base_wp := (base_waypoints.drop closest_wp_idx).take LOOKAHEAD_WPS
  if stopline_wp_idx = -1 ∨ (farthest_wp_idx : ℤ) ≤ stopline_wp_idx then
    base_wp
  else
    decelerate_waypoints base_wp stopline_wp_idx closest_wp_idx

/-- Method `WaypointUpdater.get_closest_waypoint_id`: `closest_idx` is the index
returned by the KDTree 1-nearest-neighbour query (external service).
Python's `waypoints_2d[closest_idx - 1]` wraps to the last element when
`closest_idx = 0`; for `closest_idx < L` that is index
`(closest_idx + L - 1) % L`. -/
noncomputable def get_closest_waypoint_id (waypoints_2d : List (ℝ × ℝ))
    (x y : ℝ) (closest_idx : ℕ) : ℕ :=
  let L := waypoints_2d.length
  let closest_coord := waypoints_2d.getD closest_idx (0, 0)
  let prev_coord := waypoints_2d.getD ((closest_idx + L - 1) % L) (0, 0)
  let val := (closest_coord.1 - prev_coord.1) * (x - closest_coord.1)
           + (closest_coord.2 - prev_coord.2) * (y - closest_coord.2)
  if 0 < val then (closest_idx + 1) % L else closest_idx

/-- A `/current_pose` message, reduced to the fields the node reads
(`pose.pose.position.x/.y`). -/
structure PoseMsg where
  x : ℝ
  y : ℝ

/-- The mutable fields of the `WaypointUpdater` object, as set in
`__init__`, plus two pieces of bookkeeping for the threading model:
`inFlight` counts computations launched by `thread.start_new_thread` and
not yet finished, and `launchPose` records the value of `self.pose` at
the moment the most recent computation was launched. -/
structure NodeState where
  pose : Option PoseMsg
  base_waypoints : Option (List Waypoint)
  stopline_wp_idx : ℤ
  waypoints_2d : Option (List (ℝ × ℝ))
  waypoint_tree : Option (List (ℝ × ℝ))
  thread_working : Bool
  inFlight : ℕ
  launchPose : Option PoseMsg

/-- The state after `__init__`: everything `None`, stop index `-1`,
`thread_working = False`. -/
def initState : NodeState :=
  { pose := none, base_waypoints := none, stopline_wp_idx := -1,
    waypoints_2d := none, waypoint_tree := none, thread_working := false,
    inFlight := 0, launchPose := none }

/-- Python truthiness of an optional list: `not self.waypoints_2d` is
true when the field is `None` or the empty list. -/
def pyFalsy {α : Type} : Option (List α) → Bool
  | none => true
  | some l => l.isEmpty

/-- Callback `WaypointUpdater.pose_cb`: store the message in `self.pose`; when not
busy and a route is present, set the busy flag and launch one
computation (`thread.start_new_thread(self.publish_waypoints, ())`),
which reads the pose just stored. -/
def pose_cb (s : NodeState) (msg : PoseMsg) : NodeState :=
  let s1 := { s with pose := some msg }
  if s1.thread_working = false then
    if s1.base_waypoints.isSome then
      { s1 with thread_working := true, inFlight := s1.inFlight + 1,
                launchPose := s1.pose }
    else s1
  else s1

/-- Callback `WaypointUpdater.base_waypoints_cb`: store the delivered route
unconditionally; build `waypoints_2d` and the KDTree only when
`not self.waypoints_2d` (the tree is modelled by the point list it is
built from). -/
def base_waypoints_cb (s : NodeState) (waypoints : List Waypoint) : NodeState :=
  let s1 := { s with base_waypoints := some waypoints }
  if pyFalsy s1.waypoints_2d then
    let pts := waypoints.map fun w => (w.position.x, w.position.y)
    { s1 with waypoints_2d := some pts, waypoint_tree := some pts }
  else s1

/-- Callback `WaypointUpdater.traffic_cb`: last-write-wins stop index. -/
def traffic_cb (s : NodeState) (msg : ℤ) : NodeState :=
  { s with stopline_wp_idx := msg }

/-- Method `WaypointUpdater.publish_waypoints` running to completion: compute
`generate_wp` from the current state and clear the busy flag.  `c` is the
KDTree query result fed to `get_closest_waypoint_id` (the SpatialIndex
is external).  Returns the successor state and the published window. -/
noncomputable def publish_waypoints (s : NodeState) (c : ℕ) :
    NodeState × List Waypoint :=
  if s.thread_working then
    match s.base_waypoints, s.pose with
    | some track, some p =>
        let closest := get_closest_waypoint_id (s.waypoints_2d.getD []) p.x p.y c
        ({ s with thread_working := false, inFlight := s.inFlight - 1 },
         generate_wp track s.stopline_wp_idx closest)
    | _, _ =>
        ({ s with thread_working := false, inFlight := s.inFlight - 1 }, [])
  else (s, [])

/-- The asynchronous events the node reacts to: the three subscriber
callbacks, and the completion of an in-flight `publish_waypoints` thread
(whose KDTree query answered `c`). -/
inductive UEvent where
  | pose (msg : PoseMsg)
  | base (waypoints : List Waypoint)
  | traffic (idx : ℤ)
  | finish (c : ℕ)

/-- One atomic step of the node. -/
noncomputable def step (s : NodeState) (e : UEvent) : NodeState :=
  match e with
  | .pose msg => pose_cb s msg
  | .base w => base_waypoints_cb s w
  | .traffic i => traffic_cb s i
  | .finish c => (publish_waypoints s c).1

/-- Run a sequence of events from a state. -/
noncomputable def run (s : NodeState) (evs : List UEvent) : NodeState :=
  evs.foldl step s

/-- The 5-point test route used by the spec's Scenarios A and B: colinear
points 1 m apart on the x-axis, each with base speed 5. -/
noncomputable def route5 : List Waypoint :=
  [⟨⟨0, 0, 0⟩, 5⟩, ⟨⟨1, 0, 0⟩, 5⟩, ⟨⟨2, 0, 0⟩, 5⟩, ⟨⟨3, 0, 0⟩, 5⟩, ⟨⟨4, 0, 0⟩, 5⟩]

lemma dl_self (a : Position) : dl a a = 0 := by
  simp [dl]

lemma dl_nonneg (a b : Position) : 0 ≤ dl a b :=
  Real.sqrt_nonneg _

lemma distance_of_lt (waypoints : List Waypoint) {wp1 wp2 : ℕ} (h : wp2 < wp1) :
    distance waypoints wp1 wp2 = 0 := by
  have : wp2 + 1 - wp1 = 0 := by omega
  simp [distance, this]

lemma distance_to_zero (waypoints : List Waypoint) (i : ℕ) :
    distance waypoints i 0 = 0 := by
  cases i with
  | zero => simp [distance, List.range', dl_self]
  | succ n => exact distance_of_lt waypoints (Nat.succ_pos n)

lemma distance_foldl_le (waypoints : List Waypoint) (l : List ℕ) (a : ℝ) (j : ℕ) :
    a ≤ (l.foldl
      (fun acc i =>
        (acc.1 + dl (waypoints.getD acc.2 default).position
                    (waypoints.getD i default).position, i))
      (a, j)).1 := by
  induction l generalizing a j with
  | nil => simp
  | cons x xs ih =>
      refine le_trans ?_ (ih (a + dl (waypoints.getD j default).position
        (waypoints.getD x default).position) x)
      exact le_add_of_nonneg_right (dl_nonneg _ _)

lemma distance_nonneg (waypoints : List Waypoint) (wp1 wp2 : ℕ) :
    0 ≤ distance waypoints wp1 wp2 :=
  distance_foldl_le waypoints _ 0 wp1

lemma vel_nonneg (d : ℝ) (i : ℕ) :
    0 ≤ (if Real.sqrt (2 * MAX_DECL * d) + (i : ℝ) * (CONSTANT_DECEL : ℝ) < 2.0
         then (0 : ℝ)
         else Real.sqrt (2 * MAX_DECL * d) + (i : ℝ) * (CONSTANT_DECEL : ℝ)) := by
  split
  · exact le_refl 0
  · exact add_nonneg (Real.sqrt_nonneg _)
      (mul_nonneg (Nat.cast_nonneg i) (Nat.cast_nonneg CONSTANT_DECEL))

lemma decelerate_length (waypoints : List Waypoint) (sl : ℤ) (cl : ℕ) :
    (decelerate_waypoints waypoints sl cl).length = waypoints.length := by
  simp [decelerate_waypoints]

lemma decelerate_getD (waypoints : List Waypoint) (sl : ℤ) (cl : ℕ) {i : ℕ}
    (h : i < waypoints.length) :
    (decelerate_waypoints waypoints sl cl).getD i default =
      { position := (waypoints.getD i default).position,
        speed := min
          (if Real.sqrt (2 * MAX_DECL *
                distance waypoints i (sl - cl - STOP_LINE_MARGIN).toNat)
              + (i : ℝ) * (CONSTANT_DECEL : ℝ) < 2.0
           then 0
           else Real.sqrt (2 * MAX_DECL *
                distance waypoints i (sl - cl - STOP_LINE_MARGIN).toNat)
              + (i : ℝ) * (CONSTANT_DECEL : ℝ))
          (waypoints.getD i default).speed } := by
  have hlen : i < (decelerate_waypoints waypoints sl cl).length := by
    simpa [decelerate_length] using h
  rw [List.getD_eq_getElem _ _ hlen]
  simp [decelerate_waypoints]

lemma decelerate_speed_le (waypoints : List Waypoint) (sl : ℤ) (cl : ℕ) {i : ℕ}
    (h : i < waypoints.length) :
    ((decelerate_waypoints waypoints sl cl).getD i default).speed ≤
      (waypoints.getD i default).speed := by
  rw [decelerate_getD waypoints sl cl h]
  exact min_le_right _ _

lemma decelerate_speed_nonneg (waypoints : List Waypoint) (sl : ℤ) (cl : ℕ) {i : ℕ}
    (h : i < waypoints.length) (hb : 0 ≤ (waypoints.getD i default).speed) :
    0 ≤ ((decelerate_waypoints waypoints sl cl).getD i default).speed := by
  rw [decelerate_getD waypoints sl cl h]
  exact le_min (vel_nonneg _ _) hb

lemma slice_length (track : List Waypoint) (c n : ℕ) :
    ((track.drop c).take n).length = min n (track.length - c) := by
  simp

lemma slice_getD (track : List Waypoint) (c n : ℕ) {j : ℕ}
    (h : j < ((track.drop c).take n).length) :
    ((track.drop c).take n).getD j default = track.getD (c + j) default := by
  have h1 : j < n ∧ j < track.length - c := by
    simpa [Nat.lt_min] using h
  have h2 : c + j < track.length := by omega
  rw [List.getD_eq_getElem _ _ h, List.getElem_take, List.getElem_drop,
    List.getD_eq_getElem _ _ h2]

lemma slice_getD_mem (track : List Waypoint) (c n : ℕ) {j : ℕ}
    (h : j < ((track.drop c).take n).length) :
    track.getD (c + j) default ∈ track := by
  have h1 : j < n ∧ j < track.length - c := by
    simpa [Nat.lt_min] using h
  have h2 : c + j < track.length := by omega
  rw [List.getD_eq_getElem _ _ h2]
  exact List.getElem_mem h2

/-- C3: when the stop index is the `-1` sentinel or lies at or beyond
`closestIdx + LOOKAHEAD`, `generate_wp` outputs the linear slice
`track[closestIdx : closestIdx + LOOKAHEAD]` with base speeds unchanged
elementwise; the window is at most `LOOKAHEAD` long and is truncated at
the route tail without wrapping. -/
theorem generate_wp_identity_passthrough (track : List Waypoint) (stop : ℤ)
    (closest : ℕ)
    (h : stop = -1 ∨ ((closest + LOOKAHEAD_WPS : ℕ) : ℤ) ≤ stop) :
    generate_wp track stop closest = (track.drop closest).take LOOKAHEAD_WPS ∧
    (generate_wp track stop closest).length =
      min LOOKAHEAD_WPS (track.length - closest) ∧
    ∀ j, j < (generate_wp track stop closest).length →
      (generate_wp track stop closest).getD j default =
        track.getD (closest + j) default := by
  have he : generate_wp track stop closest =
      (track.drop closest).take LOOKAHEAD_WPS := by
    simp only [generate_wp]
    rw [if_pos h]
  refine ⟨he, ?_, ?_⟩
  · rw [he]; exact slice_length track closest LOOKAHEAD_WPS
  · intro j hj
    rw [he] at hj ⊢
    exact slice_getD track closest LOOKAHEAD_WPS hj

/-- Witness for C3 at a concrete input: a one-waypoint route with the
sentinel stop index passes through unchanged. -/
theorem generate_wp_identity_passthrough_witness :
    generate_wp [(⟨⟨0, 0, 0⟩, 7⟩ : Waypoint)] (-1) 0 =
      (([(⟨⟨0, 0, 0⟩, 7⟩ : Waypoint)].drop 0).take LOOKAHEAD_WPS) :=
  (generate_wp_identity_passthrough [⟨⟨0, 0, 0⟩, 7⟩] (-1) 0 (Or.inl rfl)).1

/-- C1: for a route whose base speeds are all nonnegative, every point of
the window produced by `generate_wp` — for every closest index and every
stop index — has a target speed that is nonnegative and at most the base
speed of the corresponding route waypoint. -/
theorem generate_wp_speed_bounds (track : List Waypoint) (stop : ℤ)
    (closest : ℕ) (hb : ∀ wp ∈ track, 0 ≤ wp.speed)
    (j : ℕ) (hj : j < (generate_wp track stop closest).length) :
    0 ≤ ((generate_wp track stop closest).getD j default).speed ∧
    ((generate_wp track stop closest).getD j default).speed ≤
      (track.getD (closest + j) default).speed := by
  by_cases hc : stop = -1 ∨ ((closest + LOOKAHEAD_WPS : ℕ) : ℤ) ≤ stop
  · have he : generate_wp track stop closest =
        (track.drop closest).take LOOKAHEAD_WPS := by
      simp only [generate_wp]; rw [if_pos hc]
    rw [he] at hj ⊢
    rw [slice_getD track closest LOOKAHEAD_WPS hj]
    exact ⟨hb _ (slice_getD_mem track closest LOOKAHEAD_WPS hj), le_refl _⟩
  · have he : generate_wp track stop closest =
        decelerate_waypoints ((track.drop closest).take LOOKAHEAD_WPS)
          stop closest := by
      simp only [generate_wp]; rw [if_neg hc]
    rw [he] at hj ⊢
    have hjs : j < ((track.drop closest).take LOOKAHEAD_WPS).length := by
      rwa [decelerate_length] at hj
    constructor
    · refine decelerate_speed_nonneg _ stop closest hjs ?_
      rw [slice_getD track closest LOOKAHEAD_WPS hjs]
      exact hb _ (slice_getD_mem track closest LOOKAHEAD_WPS hjs)
    · have := decelerate_speed_le ((track.drop closest).take LOOKAHEAD_WPS)
        stop closest hjs
      rwa [slice_getD track closest LOOKAHEAD_WPS hjs] at this

/-- Witness for C1 at a concrete input: a one-waypoint route with a stop
index inside the window; the output speed is between 0 and the base 7. -/
theorem generate_wp_speed_bounds_witness :
    0 ≤ ((generate_wp [(⟨⟨0, 0, 0⟩, 7⟩ : Waypoint)] 0 0).getD 0 default).speed ∧
    ((generate_wp [(⟨⟨0, 0, 0⟩, 7⟩ : Waypoint)] 0 0).getD 0 default).speed ≤
      (([(⟨⟨0, 0, 0⟩, 7⟩ : Waypoint)]).getD (0 + 0) default).speed :=
  generate_wp_speed_bounds [⟨⟨0, 0, 0⟩, 7⟩] 0 0
    (by
      intro wp hwp
      simp only [List.mem_singleton] at hwp
      subst hwp
      norm_num)
    0
    (by
      have : generate_wp [(⟨⟨0, 0, 0⟩, 7⟩ : Waypoint)] 0 0 =
          decelerate_waypoints
            (([(⟨⟨0, 0, 0⟩, 7⟩ : Waypoint)].drop 0).take LOOKAHEAD_WPS) 0 0 := by
        simp only [generate_wp]
        rw [if_neg (by simp [LOOKAHEAD_WPS])]
      rw [this, decelerate_length]
      simp [LOOKAHEAD_WPS])

lemma constant_decel_eq_zero : CONSTANT_DECEL = 0 := rfl

lemma vel_floor_at_zero_dist (j : ℕ) :
    (if Real.sqrt (2 * MAX_DECL * 0) + (j : ℝ) * (CONSTANT_DECEL : ℝ) < 2.0
     then (0 : ℝ)
     else Real.sqrt (2 * MAX_DECL * 0) + (j : ℝ) * (CONSTANT_DECEL : ℝ)) = 0 := by
  rw [if_pos]
  rw [constant_decel_eq_zero]
  norm_num

/-- C9: when the stop index is not the `-1` sentinel and lies at or
behind `closestIdx + STOP_LINE_MARGIN`, the stop offset clamps to `0`
and — for a route with nonnegative base speeds — every target speed in
the window is exactly `0`. -/
theorem generate_wp_full_stop (track : List Waypoint) (stop : ℤ) (closest : ℕ)
    (hb : ∀ wp ∈ track, 0 ≤ wp.speed)
    (hs1 : stop ≠ -1)
    (hs2 : stop ≤ (closest : ℤ) + (STOP_LINE_MARGIN : ℤ)) :
    (stop - (closest : ℤ) - (STOP_LINE_MARGIN : ℤ)).toNat = 0 ∧
    ∀ j, j < (generate_wp track stop closest).length →
      ((generate_wp track stop closest).getD j default).speed = 0 := by
  have hm : (STOP_LINE_MARGIN : ℤ) = 2 := rfl
  have h0 : (stop - (closest : ℤ) - (STOP_LINE_MARGIN : ℤ)).toNat = 0 := by
    rw [hm] at hs2 ⊢; omega
  refine ⟨h0, ?_⟩
  intro j hj
  have hc : ¬ (stop = -1 ∨ ((closest + LOOKAHEAD_WPS : ℕ) : ℤ) ≤ stop) := by
    push_neg
    refine ⟨hs1, ?_⟩
    have hl : ((closest + LOOKAHEAD_WPS : ℕ) : ℤ) = (closest : ℤ) + 50 := by
      push_cast [LOOKAHEAD_WPS]; ring
    rw [hl]
    rw [hm] at hs2
    omega
  have he : generate_wp track stop closest =
      decelerate_waypoints ((track.drop closest).take LOOKAHEAD_WPS)
        stop closest := by
    simp only [generate_wp]; rw [if_neg hc]
  rw [he] at hj ⊢
  have hjs : j < ((track.drop closest).take LOOKAHEAD_WPS).length := by
    rwa [decelerate_length] at hj
  rw [decelerate_getD _ stop closest hjs, h0, distance_to_zero]
  have hbj : 0 ≤ (((track.drop closest).take LOOKAHEAD_WPS).getD j default).speed := by
    rw [slice_getD track closest LOOKAHEAD_WPS hjs]
    exact hb _ (slice_getD_mem track closest LOOKAHEAD_WPS hjs)
  simp only [vel_floor_at_zero_dist]
  exact min_eq_left hbj

/-- Witness for C9 at a concrete input: stop index 1 with closest 0 on a
one-waypoint route of base speed 7 yields stop offset 0 and output
speed 0. -/
theorem generate_wp_full_stop_witness :
    ((1 : ℤ) - ((0 : ℕ) : ℤ) - (STOP_LINE_MARGIN : ℤ)).toNat = 0 ∧
    ((generate_wp [(⟨⟨0, 0, 0⟩, 7⟩ : Waypoint)] 1 0).getD 0 default).speed = 0 := by
  have hb : ∀ wp ∈ [(⟨⟨0, 0, 0⟩, 7⟩ : Waypoint)], 0 ≤ wp.speed := by
    intro wp hwp
    simp only [List.mem_singleton] at hwp
    subst hwp
    norm_num
  have hs2 : (1 : ℤ) ≤ ((0 : ℕ) : ℤ) + (STOP_LINE_MARGIN : ℤ) := by
    norm_num [STOP_LINE_MARGIN]
  refine ⟨(generate_wp_full_stop [⟨⟨0, 0, 0⟩, 7⟩] 1 0 hb (by decide) hs2).1, ?_⟩
  refine (generate_wp_full_stop [⟨⟨0, 0, 0⟩, 7⟩] 1 0 hb (by decide) hs2).2 0 ?_
  have he : generate_wp [(⟨⟨0, 0, 0⟩, 7⟩ : Waypoint)] 1 0 =
      decelerate_waypoints
        (([(⟨⟨0, 0, 0⟩, 7⟩ : Waypoint)].drop 0).take LOOKAHEAD_WPS) 1 0 := by
    simp only [generate_wp]
    rw [if_neg (by simp [LOOKAHEAD_WPS])]
  rw [he, decelerate_length]
  simp [LOOKAHEAD_WPS]

/-- C6: for every slice and slice index `i` beyond the stop offset, the
cumulative-distance loop returns exactly `0` (its range is empty), and
with a nonnegative base speed at `i` the profiler's output speed at `i`
is exactly `0` through the `2.0` minimum-speed floor. -/
theorem decelerate_beyond_stop (waypoints : List Waypoint) (stop : ℤ)
    (closest : ℕ) (i : ℕ) (hi : i < waypoints.length)
    (hgt : (stop - (closest : ℤ) - (STOP_LINE_MARGIN : ℤ)).toNat < i)
    (hb : 0 ≤ (waypoints.getD i default).speed) :
    distance waypoints i (stop - (closest : ℤ) - (STOP_LINE_MARGIN : ℤ)).toNat = 0 ∧
    ((decelerate_waypoints waypoints stop closest).getD i default).speed = 0 := by
  have hd : distance waypoints i
      (stop - (closest : ℤ) - (STOP_LINE_MARGIN : ℤ)).toNat = 0 :=
    distance_of_lt waypoints hgt
  refine ⟨hd, ?_⟩
  rw [decelerate_getD waypoints stop closest hi, hd]
  simp only [vel_floor_at_zero_dist]
  exact min_eq_left hb

/-- Witness for C6 at a concrete input: slice index 1 beyond stop
offset 0 gets distance 0 and output speed 0. -/
theorem decelerate_beyond_stop_witness :
    distance [(⟨⟨0, 0, 0⟩, 7⟩ : Waypoint), ⟨⟨1, 0, 0⟩, 7⟩] 1
      ((0 : ℤ) - ((0 : ℕ) : ℤ) - (STOP_LINE_MARGIN : ℤ)).toNat = 0 ∧
    ((decelerate_waypoints [(⟨⟨0, 0, 0⟩, 7⟩ : Waypoint), ⟨⟨1, 0, 0⟩, 7⟩] 0 0).getD
      1 default).speed = 0 :=
  decelerate_beyond_stop [⟨⟨0, 0, 0⟩, 7⟩, ⟨⟨1, 0, 0⟩, 7⟩] 0 0 1
    (by simp)
    (by norm_num [STOP_LINE_MARGIN])
    (by norm_num [List.getD])

lemma ite_lt {p : Prop} [Decidable p] {a b L : ℕ} (ha : a < L) (hb : b < L) :
    (if p then a else b) < L := by
  split
  · exact ha
  · exact hb

lemma prev_index_eq (L c : ℕ) (hL : 0 < L) (hc : c < L) :
    (c + L - 1) % L = if c = 0 then L - 1 else c - 1 := by
  rcases Nat.eq_zero_or_pos c with h0 | hpos
  · subst h0
    rw [if_pos rfl]
    have hz : 0 + L - 1 = L - 1 := by omega
    rw [hz]
    exact Nat.mod_eq_of_lt (by omega)
  · rw [if_neg (by omega)]
    have harith : c + L - 1 = (c - 1) + L := by omega
    rw [harith, Nat.add_mod_right]
    exact Nat.mod_eq_of_lt (by omega)

/-- C2: for a route of at least 2 points and a nearest-neighbour query
result `c` in range, `get_closest_waypoint_id` keeps `c` when
`dot(c - p, pose - c) ≤ 0` — `p` being the track point at `c-1`, wrapping
to `L-1` when `c = 0` — and advances to `(c+1) % L` when the dot product
is positive; the result is always a valid index below `L`. -/
theorem get_closest_dispatch (waypoints_2d : List (ℝ × ℝ)) (x y : ℝ) (c : ℕ)
    (hL : 2 ≤ waypoints_2d.length) (hc : c < waypoints_2d.length) :
    (((waypoints_2d.getD c (0, 0)).1 -
        (waypoints_2d.getD
          (if c = 0 then waypoints_2d.length - 1 else c - 1) (0, 0)).1) *
          (x - (waypoints_2d.getD c (0, 0)).1) +
      ((waypoints_2d.getD c (0, 0)).2 -
        (waypoints_2d.getD
          (if c = 0 then waypoints_2d.length - 1 else c - 1) (0, 0)).2) *
          (y - (waypoints_2d.getD c (0, 0)).2) ≤ 0 →
      get_closest_waypoint_id waypoints_2d x y c = c) ∧
    (0 < ((waypoints_2d.getD c (0, 0)).1 -
        (waypoints_2d.getD
          (if c = 0 then waypoints_2d.length - 1 else c - 1) (0, 0)).1) *
          (x - (waypoints_2d.getD c (0, 0)).1) +
      ((waypoints_2d.getD c (0, 0)).2 -
        (waypoints_2d.getD
          (if c = 0 then waypoints_2d.length - 1 else c - 1) (0, 0)).2) *
          (y - (waypoints_2d.getD c (0, 0)).2) →
      get_closest_waypoint_id waypoints_2d x y c =
        (c + 1) % waypoints_2d.length) ∧
    get_closest_waypoint_id waypoints_2d x y c < waypoints_2d.length := by
  have hprev : (c + waypoints_2d.length - 1) % waypoints_2d.length =
      if c = 0 then waypoints_2d.length - 1 else c - 1 :=
    prev_index_eq waypoints_2d.length c (by omega) hc
  simp only [get_closest_waypoint_id, hprev]
  refine ⟨?_, ?_, ?_⟩
  · intro h
    rw [if_neg (not_lt.mpr h)]
  · intro h
    rw [if_pos h]
  · exact ite_lt (Nat.mod_lt _ (by omega)) hc

/-- Witness for C2 at a concrete input: a 2-point route with the pose on
the first point; the dot product is 0, so the resolver keeps index 0,
which is below the length. -/
theorem get_closest_dispatch_witness :
    get_closest_waypoint_id [((0 : ℝ), (0 : ℝ)), (1, 0)] 0 0 0 = 0 ∧
    get_closest_waypoint_id [((0 : ℝ), (0 : ℝ)), (1, 0)] 0 0 0 <
      ([((0 : ℝ), (0 : ℝ)), (1, 0)] : List (ℝ × ℝ)).length :=
  ⟨(get_closest_dispatch [(0, 0), (1, 0)] 0 0 0 (by simp) (by simp)).1
      (by norm_num [List.getD_cons_zero, List.getD_cons_succ]),
   (get_closest_dispatch [(0, 0), (1, 0)] 0 0 0 (by simp) (by simp)).2.2⟩

lemma decelerate_getD_position (waypoints : List Waypoint) (sl : ℤ) (cl : ℕ)
    {i : ℕ} (h : i < waypoints.length) :
    ((decelerate_waypoints waypoints sl cl).getD i default).position =
      (waypoints.getD i default).position := by
  rw [decelerate_getD waypoints sl cl h]

lemma dl_xaxis (u v : ℝ) : dl ⟨u, 0, 0⟩ ⟨v, 0, 0⟩ = |u - v| := by
  simp [dl]
  exact Real.sqrt_sq_eq_abs _

lemma creep_lt_two (c : ℝ) (i : ℕ) (hc : c < 4) :
    Real.sqrt c + (i : ℝ) * (CONSTANT_DECEL : ℝ) < 2.0 := by
  rw [constant_decel_eq_zero]
  have hs : Real.sqrt c < 2 := by
    rw [Real.sqrt_lt' (by norm_num)]
    norm_num [hc]
  push_cast
  norm_num [hs]

lemma speed_of_snap {d b : ℝ} (i : ℕ)
    (hd : Real.sqrt (2 * MAX_DECL * d) + (i : ℝ) * (CONSTANT_DECEL : ℝ) < 2.0)
    (hb : 0 ≤ b) :
    min (if Real.sqrt (2 * MAX_DECL * d) + (i : ℝ) * (CONSTANT_DECEL : ℝ) < 2.0
         then (0 : ℝ)
         else Real.sqrt (2 * MAX_DECL * d) + (i : ℝ) * (CONSTANT_DECEL : ℝ))
      b = 0 := by
  rw [if_pos hd]
  exact min_eq_left hb

lemma distance_route5_0 : distance route5 0 2 = 2 := by
  have h : (List.range' 0 (2 + 1 - 0)) = [0, 1, 2] := rfl
  simp only [distance, h, List.foldl]
  simp only [route5, List.getD_cons_zero, List.getD_cons_succ]
  rw [dl_self, dl_xaxis, dl_xaxis]
  norm_num

lemma distance_route5_1 : distance route5 1 2 = 1 := by
  have h : (List.range' 1 (2 + 1 - 1)) = [1, 2] := rfl
  simp only [distance, h, List.foldl]
  simp only [route5, List.getD_cons_zero, List.getD_cons_succ]
  rw [dl_self, dl_xaxis]
  norm_num

lemma distance_route5_2 : distance route5 2 2 = 0 := by
  have h : (List.range' 2 (2 + 1 - 2)) = [2] := rfl
  simp only [distance, h, List.foldl]
  simp only [route5, List.getD_cons_zero, List.getD_cons_succ]
  rw [dl_self]
  norm_num

lemma route5_length : route5.length = 5 := by
  simp [route5]

lemma route5_stop_offset :
    ((4 : ℤ) - ((0 : ℕ) : ℤ) - (STOP_LINE_MARGIN : ℤ)).toNat = 2 := by
  decide

lemma route5_speed_nonneg (i : ℕ) : 0 ≤ (route5.getD i default).speed := by
  match i with
  | 0 => norm_num [route5, List.getD_cons_zero]
  | 1 => norm_num [route5, List.getD_cons_zero, List.getD_cons_succ]
  | 2 => norm_num [route5, List.getD_cons_zero, List.getD_cons_succ]
  | 3 => norm_num [route5, List.getD_cons_zero, List.getD_cons_succ]
  | 4 => norm_num [route5, List.getD_cons_zero, List.getD_cons_succ]
  | n + 5 =>
      rw [List.getD_eq_default]
      · exact le_refl 0
      · rw [route5_length]; omega

lemma scenario_b_speed (i : ℕ) (h : i < 5) :
    ((decelerate_waypoints route5 4 0).getD i default).speed = 0 := by
  have h5 : i < route5.length := by rwa [route5_length]
  rw [decelerate_getD route5 4 0 h5, route5_stop_offset]
  interval_cases i
  · rw [distance_route5_0]
    exact speed_of_snap 0 (creep_lt_two _ 0 (by norm_num [MAX_DECL]))
      (route5_speed_nonneg 0)
  · rw [distance_route5_1]
    exact speed_of_snap 1 (creep_lt_two _ 1 (by norm_num [MAX_DECL]))
      (route5_speed_nonneg 1)
  · rw [distance_route5_2]
    exact speed_of_snap 2 (creep_lt_two _ 2 (by norm_num [MAX_DECL]))
      (route5_speed_nonneg 2)
  · rw [distance_of_lt route5 (by norm_num)]
    exact speed_of_snap 3 (creep_lt_two _ 3 (by norm_num [MAX_DECL]))
      (route5_speed_nonneg 3)
  · rw [distance_of_lt route5 (by norm_num)]
    exact speed_of_snap 4 (creep_lt_two _ 4 (by norm_num [MAX_DECL]))
      (route5_speed_nonneg 4)

lemma scenario_b_decel_eq :
    generate_wp route5 4 0 = decelerate_waypoints route5 4 0 := by
  simp only [generate_wp]
  rw [if_neg (by norm_num [LOOKAHEAD_WPS])]
  rw [List.drop_zero, List.take_of_length_le (by rw [route5_length]; norm_num [LOOKAHEAD_WPS])]

lemma scenario_b_length : (decelerate_waypoints route5 4 0).length = 5 := by
  rw [decelerate_length, route5_length]

/-- C5 counterexample: in Scenario B (5 colinear points 1 m apart, base
speed 5, closest index 0, stop index 4, margin 2) the output target speed
at slice index 0 is exactly 0 — not nonzero as claimed: its raw velocity
`sqrt(2*0.5*2) = sqrt 2 ≈ 1.41` falls below the `2.0` floor. -/
theorem scenario_b_index0_speed_zero :
    ((generate_wp route5 4 0).getD 0 default).speed = 0 := by
  rw [scenario_b_decel_eq]
  exact scenario_b_speed 0 (by norm_num)

/-- C5 (amended): in Scenario B the stop offset is `max(4-0-2,0) = 2` and
the output target speeds at slice indices 2, 3, 4 are exactly 0; the
speeds at indices 0 and 1 are also exactly 0 (raw velocities `sqrt 2` and
`1` fall below the 2.0 floor), so the whole window is `[0,0,0,0,0]`, with
the positions passed through unchanged. -/
theorem scenario_b_full_stop_window :
    ((4 : ℤ) - ((0 : ℕ) : ℤ) - (STOP_LINE_MARGIN : ℤ)).toNat = 2 ∧
    (generate_wp route5 4 0).map Waypoint.speed = [0, 0, 0, 0, 0] ∧
    (generate_wp route5 4 0).map Waypoint.position =
      route5.map Waypoint.position := by
  refine ⟨route5_stop_offset, ?_, ?_⟩
  · rw [scenario_b_decel_eq]
    refine List.ext_getElem ?_ ?_
    · rw [List.length_map, scenario_b_length]
      rfl
    · intro i h1 h2
      rw [List.getElem_map]
      have hi5 : i < 5 := by
        rw [List.length_map, scenario_b_length] at h1
        exact h1
      have hgd := scenario_b_speed i hi5
      rw [List.getD_eq_getElem _ _ (by rw [scenario_b_length]; exact hi5)] at hgd
      rw [hgd]
      interval_cases i <;> norm_num
  · rw [scenario_b_decel_eq]
    refine List.ext_getElem ?_ ?_
    · rw [List.length_map, scenario_b_length, List.length_map, route5_length]
    · intro i h1 h2
      rw [List.getElem_map, List.getElem_map]
      have hi5 : i < route5.length := by
        rw [List.length_map, scenario_b_length, ← route5_length] at h1
        exact h1
      have hgd := decelerate_getD_position route5 4 0 hi5
      rw [List.getD_eq_getElem _ _ (by rw [scenario_b_length, ← route5_length]; exact hi5),
        List.getD_eq_getElem _ _ hi5] at hgd
      exact hgd

/-- C4 (code-bug evidence): the module runs under Python 2, so
`CONSTANT_DECEL = 1 / LOOKAHEAD_WPS` is integer floor division and
evaluates to 0, not 1/50 = 0.02; consequently the per-index creep term
`i * CONSTANT_DECEL` is 0 for every slice index `i` — never strictly
positive — and the raw velocity reduces to `sqrt(2 * MAX_DECL * dist)`. -/
theorem constant_decel_term_vanishes :
    CONSTANT_DECEL = 0 ∧
    (∀ i : ℕ, (i : ℝ) * (CONSTANT_DECEL : ℝ) = 0) ∧
    ∀ (i : ℕ) (d : ℝ),
      Real.sqrt (2 * MAX_DECL * d) + (i : ℝ) * (CONSTANT_DECEL : ℝ) =
        Real.sqrt (2 * MAX_DECL * d) := by
  refine ⟨rfl, ?_, ?_⟩
  · intro i
    rw [constant_decel_eq_zero]
    norm_num
  · intro i d
    rw [constant_decel_eq_zero]
    norm_num

/-- C7 counterexample: delivering a 1-waypoint route and then an empty
route leaves the 2-D point list untouched but OVERWRITES the stored
route track — `base_waypoints` after the second delivery differs from
what the first delivery stored, so a subsequent delivery is not ignored. -/
theorem route_redelivery_overwrites_track :
    (base_waypoints_cb initState [(⟨⟨0, 0, 0⟩, 0⟩ : Waypoint)]).base_waypoints =
      some [(⟨⟨0, 0, 0⟩, 0⟩ : Waypoint)] ∧
    (base_waypoints_cb
        (base_waypoints_cb initState [(⟨⟨0, 0, 0⟩, 0⟩ : Waypoint)])
        []).base_waypoints = some [] ∧
    (base_waypoints_cb
        (base_waypoints_cb initState [(⟨⟨0, 0, 0⟩, 0⟩ : Waypoint)])
        []).base_waypoints ≠
      (base_waypoints_cb initState [(⟨⟨0, 0, 0⟩, 0⟩ : Waypoint)]).base_waypoints := by
  refine ⟨rfl, rfl, ?_⟩
  intro hne
  simp only [base_waypoints_cb, initState, pyFalsy] at hne
  simp at hne

/-- C7 (amended): once the 2-D point list has been built nonempty, a
subsequent route delivery leaves the 2-D point list and the spatial
index unchanged, but it overwrites the stored route track with the newly
delivered waypoint sequence (only the index construction is idempotent,
not the track storage). -/
theorem route_redelivery_preserves_index (s : NodeState)
    (waypoints : List Waypoint) (h : pyFalsy s.waypoints_2d = false) :
    (base_waypoints_cb s waypoints).waypoints_2d = s.waypoints_2d ∧
    (base_waypoints_cb s waypoints).waypoint_tree = s.waypoint_tree ∧
    (base_waypoints_cb s waypoints).base_waypoints = some waypoints := by
  simp [base_waypoints_cb, h]

/-- Witness for C7's amended theorem at a concrete input. -/
theorem route_redelivery_preserves_index_witness :
    (base_waypoints_cb
        { initState with waypoints_2d := some [((0 : ℝ), (0 : ℝ))] }
        []).waypoints_2d =
      ({ initState with waypoints_2d := some [((0 : ℝ), (0 : ℝ))] } :
        NodeState).waypoints_2d ∧
    (base_waypoints_cb
        { initState with waypoints_2d := some [((0 : ℝ), (0 : ℝ))] }
        []).waypoint_tree =
      ({ initState with waypoints_2d := some [((0 : ℝ), (0 : ℝ))] } :
        NodeState).waypoint_tree ∧
    (base_waypoints_cb
        { initState with waypoints_2d := some [((0 : ℝ), (0 : ℝ))] }
        []).base_waypoints = some [] :=
  route_redelivery_preserves_index
    { initState with waypoints_2d := some [((0 : ℝ), (0 : ℝ))] } [] rfl

lemma step_inflight_inv (s : NodeState) (e : UEvent)
    (h : s.inFlight = if s.thread_working then 1 else 0) :
    (step s e).inFlight = if (step s e).thread_working then 1 else 0 := by
  cases e with
  | pose msg =>
      cases ht : s.thread_working with
      | false =>
          simp only [ht, if_false] at h
          cases hb : s.base_waypoints with
          | none => simp [step, pose_cb, ht, hb, h]
          | some t => simp [step, pose_cb, ht, hb, h]
      | true =>
          simp only [ht, if_true] at h
          simp [step, pose_cb, ht, h]
  | base w =>
      simp only [step, base_waypoints_cb]
      split
      · simpa using h
      · simpa using h
  | traffic i => simpa [step, traffic_cb] using h
  | finish c =>
      cases ht : s.thread_working with
      | false =>
          simp only [ht, if_false] at h
          simp [step, publish_waypoints, ht, h]
      | true =>
          simp only [ht, if_true] at h
          cases hb : s.base_waypoints with
          | none =>
              simp [step, publish_waypoints, ht, hb, h]
          | some t =>
              cases hp : s.pose with
              | none => simp [step, publish_waypoints, ht, hb, hp, h]
              | some p => simp [step, publish_waypoints, ht, hb, hp, h]

lemma run_inflight_inv (s : NodeState) (evs : List UEvent)
    (h : s.inFlight = if s.thread_working then 1 else 0) :
    (run s evs).inFlight = if (run s evs).thread_working then 1 else 0 := by
  induction evs generalizing s with
  | nil => simpa [run] using h
  | cons e t ih => exact ih (step s e) (step_inflight_inv s e h)

/-- C8: (i) in every state reachable from `__init__` by pose / route /
stop / completion events, the number of in-flight trajectory
computations is 1 exactly when the busy flag is set (so never more than
one); (ii) a pose update arriving while busy stores the new pose and
changes nothing else — it launches no computation; (iii) after the
in-flight computation completes, the next computation launched reads the
most recently stored pose, not the pose that triggered the in-flight
run. -/
theorem single_flight_overlap_guard :
    (∀ evs : List UEvent,
        (run initState evs).inFlight =
          if (run initState evs).thread_working then 1 else 0) ∧
    (∀ (s : NodeState) (msg : PoseMsg), s.thread_working = true →
        step s (.pose msg) = { s with pose := some msg }) ∧
    (∀ (s : NodeState) (msg msg' : PoseMsg) (c : ℕ),
        s.thread_working = true → s.base_waypoints.isSome = true →
        (run s [.pose msg, .finish c, .pose msg']).launchPose = some msg' ∧
        (run s [.pose msg, .finish c, .pose msg']).pose = some msg' ∧
        (run s [.pose msg, .finish c, .pose msg']).thread_working = true) := by
  refine ⟨?_, ?_, ?_⟩
  · intro evs
    exact run_inflight_inv initState evs rfl
  · intro s msg ht
    simp [step, pose_cb, ht]
  · intro s msg msg' c ht hb
    obtain ⟨track, htrack⟩ := Option.isSome_iff_exists.mp hb
    simp [run, step, pose_cb, publish_waypoints, ht, htrack]

/-- Witness for C8 at a concrete input: from a busy state, a pose update
followed by completion and a second pose update launches a computation
that reads the second pose. -/
theorem single_flight_overlap_guard_witness :
    (run { initState with
             thread_working := true
             inFlight := 1
             base_waypoints := some [] }
        [.pose ⟨0, 0⟩, .finish 0, .pose ⟨1, 1⟩]).launchPose = some ⟨1, 1⟩ ∧
    (run { initState with
             thread_working := true
             inFlight := 1
             base_waypoints := some [] }
        [.pose ⟨0, 0⟩, .finish 0, .pose ⟨1, 1⟩]).pose = some ⟨1, 1⟩ :=
  ⟨(single_flight_overlap_guard.2.2
      { initState with
          thread_working := true
          inFlight := 1
          base_waypoints := some [] } ⟨0, 0⟩ ⟨1, 1⟩ 0 rfl rfl).1,
   (single_flight_overlap_guard.2.2
      { initState with
          thread_working := true
          inFlight := 1
          base_waypoints := some [] } ⟨0, 0⟩ ⟨1, 1⟩ 0 rfl rfl).2.1⟩

lemma step_base_preserved (s : NodeState) (e : UEvent)
    (h : ∀ w, e ≠ .base w) :
    (step s e).base_waypoints = s.base_waypoints := by
  cases e with
  | pose msg =>
      simp only [step, pose_cb]
      split
      · split
        · rfl
        · rfl
      · rfl
  | base w => exact absurd rfl (h w)
  | traffic i => rfl
  | finish c =>
      cases ht : s.thread_working with
      | false => simp [step, publish_waypoints, ht]
      | true =>
          cases hb : s.base_waypoints with
          | none => simp [step, publish_waypoints, ht, hb]
          | some t =>
              cases hp : s.pose with
              | none => simp [step, publish_waypoints, ht, hb, hp]
              | some p => simp [step, publish_waypoints, ht, hb, hp]

/-- C10: the deceleration profiler never writes into its input: any run
of pose / stop / completion events (in particular, any number of
trajectory computations) leaves the stored base route exactly as loaded,
and each profiler output is a fresh list of the input's length whose
elements carry the input positions unchanged — so later windows always
start from the original base speeds. -/
theorem decel_preserves_base_route :
    (∀ (s : NodeState) (evs : List UEvent),
        (∀ w, UEvent.base w ∉ evs) →
        (run s evs).base_waypoints = s.base_waypoints) ∧
    (∀ (waypoints : List Waypoint) (sl : ℤ) (cl : ℕ),
        (decelerate_waypoints waypoints sl cl).length = waypoints.length ∧
        ∀ i, i < waypoints.length →
          ((decelerate_waypoints waypoints sl cl).getD i default).position =
            (waypoints.getD i default).position) := by
  constructor
  · intro s evs
    induction evs generalizing s with
    | nil => intro _; rfl
    | cons e t ih =>
        intro h
        have he : ∀ w, e ≠ .base w := by
          intro w hw
          exact h w (by rw [hw]; exact List.mem_cons_self _ _)
        have ht : ∀ w, UEvent.base w ∉ t := by
          intro w hw
          exact h w (List.mem_cons_of_mem _ hw)
        calc (run s (e :: t)).base_waypoints
            = (run (step s e) t).base_waypoints := rfl
          _ = (step s e).base_waypoints := ih (step s e) ht
          _ = s.base_waypoints := step_base_preserved s e he
  · intro waypoints sl cl
    exact ⟨decelerate_length waypoints sl cl,
      fun i hi => decelerate_getD_position waypoints sl cl hi⟩

/-- Witness for C10 at a concrete input: a stop-index update leaves the
(empty) stored route unchanged. -/
theorem decel_preserves_base_route_witness :
    (run initState [.traffic 3]).base_waypoints = initState.base_waypoints :=
  decel_preserves_base_route.1 initState [.traffic 3]
    (by intro w; simp)

end WaypointUpdater
